import Mathlib

/-!
# terraform-validator: command orchestration layer (`cmd/root.go`)

A shallow embedding of the flag registry, the version-negotiation hook
(`rootCmd.PersistentPreRunE`), the dispatch performed by `rootCmd.Execute()`
and the entry point `Execute`, followed by the properties proved about them.

Modelling conventions

* Go package-level state (`flags`, the standard logger's output, what has been
  written to the process streams) is threaded explicitly as a `World`.
* A Go `error` is its message; `nil` is `none`.
* `fmt.Sprintf` with `%s` verbs is string concatenation.
* A log record is the formatted message handed to the logger; the date/time
  header that `log.LstdFlags` puts in front of it and the trailing newline are
  not part of the model.
* The constants `tfplan.TF11` and `tfplan.TF12` live in another package and are
  taken as parameters (`Tfplan`).
-/

namespace TerraformValidator

/-! ## Data model -/

/-- The two version tokens exported by package `tfplan`. -/
structure Tfplan where
  TF11 : String
  TF12 : String
deriving DecidableEq, Repr

/-- The anonymous struct `flags.convert`. -/
structure ConvertFlags where
  project : String
  ancestry : String
deriving DecidableEq, Repr

/-- The anonymous struct `flags.validate`. -/
structure ValidateFlags where
  project : String
  ancestry : String
  policyPath : String
  outputJSON : Bool
deriving DecidableEq, Repr

/-- The package-level variable `flags`. -/
structure Flags where
  verbose : Bool
  tfVersion : String
  convert : ConvertFlags
  validate : ValidateFlags
  listSupportedResources : Unit
deriving DecidableEq, Repr

/-- The two `io.Writer` values this file hands to loggers: `os.Stderr` and
`ioutil.Discard`. -/
inductive Writer where
  | stderr
  | discard
deriving DecidableEq, Repr

/-- Process state visible to this layer. -/
structure World where
  /-- the flag registry -/
  flags : Flags
  /-- output destination of the standard logger of package `log` -/
  logOutput : Writer
  /-- records written to the diagnostic stream `os.Stderr`, oldest first -/
  stderr : List String
  /-- records written to standard output, oldest first -/
  stdout : List String
  /-- collaborator invocations (converter, policy engine, resource listing)
  performed so far, oldest first -/
  effects : List String
deriving DecidableEq, Repr

/-- The registry as `init` declares it: every flag at its default. -/
def Flags.defaults : Flags :=
  { verbose := false
    tfVersion := ""
    convert := { project := "", ancestry := "" }
    validate := { project := "", ancestry := "", policyPath := "", outputJSON := false }
    listSupportedResources := () }

/-- The state at process start: default flags, the standard logger still
writing to `os.Stderr`, nothing written yet. -/
def World.initial : World :=
  { flags := Flags.defaults, logOutput := .stderr, stderr := [], stdout := [], effects := [] }

/-! ## Logging -/

/-- Writing one record to a writer. -/
def Writer.write (wr : Writer) (record : String) (w : World) : World :=
  match wr with
  | .stderr => { w with stderr := w.stderr ++ [record] }
  | .discard => w

/-- A `*log.Logger` created by `log.New`: it owns its output destination. -/
structure Logger where
  out : Writer
deriving DecidableEq, Repr

/-- The method `(*log.Logger).Printf`, applied to an already formatted message. -/
def Logger.Printf (l : Logger) (msg : String) (w : World) : World :=
  l.out.write msg w

/-- The package variable `LoggerStdErr = log.New(os.Stderr, "", log.LstdFlags)`. -/
def LoggerStdErr : Logger := { out := .stderr }

/-- The function `log.SetOutput`: redirects the standard logger only. -/
def logSetOutput (wr : Writer) (w : World) : World :=
  { w with logOutput := wr }

/-- The function `log.Printf` of the standard logger, applied to an already
formatted message. -/
def logPrintf (msg : String) (w : World) : World :=
  w.logOutput.write msg w

/-! ## Version negotiation -/

/-- The format string of the defaulting warning, applied to its argument. -/
def warningMessage (v : String) : String :=
  "Warning: --tf-version flag not defined, using default value: " ++ v

/-- The format string of the configuration error, applied to its arguments. -/
def errorMessage (tf : Tfplan) (got : String) : String :=
  "Possible values for --tf-version flag are [" ++ tf.TF11 ++ ", " ++ tf.TF12 ++ "], got: " ++ got

/-- The hook `rootCmd.PersistentPreRunE`. The `switch` tries its cases in
source order: the two supported tokens first, then the empty string, then
`default`. -/
def PersistentPreRunE (tf : Tfplan) (w : World) : World × Option String :=
  let w1 := if !w.flags.verbose then logSetOutput .discard w else w
  if w1.flags.tfVersion = tf.TF11 ∨ w1.flags.tfVersion = tf.TF12 then
    (w1, none)
  else if w1.flags.tfVersion = "" then
    let w2 := { w1 with flags := { w1.flags with tfVersion := tf.TF11 } }
    let w3 := LoggerStdErr.Printf (warningMessage w2.flags.tfVersion) w2
    (w3, none)
  else
    (w1, some (errorMessage tf w1.flags.tfVersion))

/-! ## Dispatch (`rootCmd.Execute()`)

The command tree is the one `init` builds: the root command with four
subcommands. An invocation selects one of the four and supplies flags and
positional arguments; runs of the root command itself and of the `help` command
cobra adds are not invocations of a subcommand. For the selected command cobra parses the flags into the
registry; when the `help` flag, which cobra declares on every command, came out
true it shows the command's help and returns no error; otherwise it runs the
nearest persistent pre-run hook (the root's, the only one declared), checks the
flags marked as required, and only then runs the command's handler; the first
error ends the run. What cobra itself prints (the help text, the `Error:` line
and the usage after a failure) is not recorded in the streams of the model. -/

/-- The subcommands registered by `rootCmd.AddCommand`, in registration order. -/
inductive Sub where
  | convert
  | listSupportedResources
  | validate
  | version
deriving DecidableEq, Repr

/-- One command line, after cobra has picked the subcommand: the flags that
appear on it, in order, each under its long name with the text of its value (a
bare boolean flag carries "true"), and the positional arguments. -/
structure Invocation where
  sub : Sub
  given : List (String × String)
  args : List String
deriving DecidableEq, Repr

/-- The function `strconv.ParseBool`, which pflag uses for boolean flags. -/
def parseBool (s : String) : Option Bool :=
  if s = "1" ∨ s = "t" ∨ s = "T" ∨ s = "TRUE" ∨ s = "true" ∨ s = "True" then some true
  else if s = "0" ∨ s = "f" ∨ s = "F" ∨ s = "FALSE" ∨ s = "false" ∨ s = "False" then some false
  else none

/-- The error pflag reports for a flag the selected command does not declare. -/
def unknownFlag (name : String) : String := "unknown flag: --" ++ name

/-- The error pflag reports for a boolean flag whose value does not parse;
`flagName` is the flag as pflag prints it. Values are quoted as they are,
without the escapes of `%q`. -/
def invalidBool (flagName value : String) : String :=
  "invalid argument \"" ++ value ++ "\" for \"" ++ flagName ++
    "\" flag: strconv.ParseBool: parsing \"" ++ value ++ "\": invalid syntax"

/-- What flag parsing fills in: the registry, through the variable bindings of
`init`, and the value of cobra's own `help` flag. -/
structure Parsed where
  flags : Flags
  help : Bool
deriving DecidableEq, Repr

/-- Storing one flag occurrence. The `help` flag belongs to every command; the
persistent flags of the root command are visible to every subcommand, the
local flags only to their own command. -/
def setFlag (c : Sub) (name value : String) (p : Parsed) : Except String Parsed :=
  if name = "help" then
    match parseBool value with
    | some b => .ok { p with help := b }
    | none => .error (invalidBool "-h, --help" value)
  else if name = "verbose" then
    match parseBool value with
    | some b => .ok { p with flags := { p.flags with verbose := b } }
    | none => .error (invalidBool "--verbose" value)
  else if name = "tf-version" then
    .ok { p with flags := { p.flags with tfVersion := value } }
  else
    match c with
    | .validate =>
      if name = "policy-path" then
        .ok { p with flags := { p.flags with validate := { p.flags.validate with policyPath := value } } }
      else if name = "project" then
        .ok { p with flags := { p.flags with validate := { p.flags.validate with project := value } } }
      else if name = "ancestry" then
        .ok { p with flags := { p.flags with validate := { p.flags.validate with ancestry := value } } }
      else if name = "output-json" then
        match parseBool value with
        | some b =>
          .ok { p with flags := { p.flags with validate := { p.flags.validate with outputJSON := b } } }
        | none => .error (invalidBool "--output-json" value)
      else .error (unknownFlag name)
    | .convert =>
      if name = "project" then
        .ok { p with flags := { p.flags with convert := { p.flags.convert with project := value } } }
      else if name = "ancestry" then
        .ok { p with flags := { p.flags with convert := { p.flags.convert with ancestry := value } } }
      else .error (unknownFlag name)
    | .listSupportedResources => .error (unknownFlag name)
    | .version => .error (unknownFlag name)

/-- Flag parsing: occurrences are stored left to right and parsing stops at the
first one that fails; what was stored before it stays stored. -/
def parseFlags (c : Sub) : List (String × String) → Parsed → Parsed × Option String
  | [], p => (p, none)
  | (name, value) :: rest, p =>
    match setFlag c name value p with
    | .ok q => parseFlags c rest q
    | .error e => (p, some e)

/-- The flags marked by `MarkFlagRequired`: only `policy-path` of `validate`. -/
def requiredFlags : Sub → List String
  | .validate => ["policy-path"]
  | .convert => []
  | .listSupportedResources => []
  | .version => []

/-- The names of the required flags of a command that do not appear on the
command line. -/
def missingFlags (c : Sub) (given : List (String × String)) : List String :=
  (requiredFlags c).filter fun n => !(given.map Prod.fst).contains n

/-- Cobra's required-flag check: it fails when a required flag was not supplied,
whatever its stored value. -/
def validateRequiredFlags (c : Sub) (given : List (String × String)) : Option String :=
  if (missingFlags c given).isEmpty then none
  else some ("required flag(s) \"" ++ String.intercalate "\", \"" (missingFlags c given) ++ "\" not set")

/-- A subcommand handler (`RunE`): it receives the positional arguments, may
read the registry, write to the streams and call collaborators, and may fail. -/
abbrev Handler := List String → World → World × Option String

/-- Modelled from the spec: the declarations `convertCmd`,
`listSupportedResourcesCmd`, `validateCmd` and `versionCmd` are in files that are
not part of this development. The spec describes each subcommand as a name, its
flag declarations and a handler, and has version negotiation run for every
subcommand, so each is represented by its handler, taken as a parameter, and
declares no persistent pre-run hook of its own. -/
structure Handlers where
  convert : Handler
  listSupportedResources : Handler
  validate : Handler
  version : Handler

/-- The handler of a subcommand. -/
def Handlers.run (hs : Handlers) : Sub → Handler
  | .convert => hs.convert
  | .listSupportedResources => hs.listSupportedResources
  | .validate => hs.validate
  | .version => hs.version

/-- What a run went through, as an observer of the dispatcher sees it: cobra
showing the help of the command, the version-negotiation hook, and a handler
together with the registry it was started on. -/
inductive Event where
  | help
  | hook
  | handler (c : Sub) (seen : Flags)
deriving DecidableEq, Repr

/-- The result of dispatch: the final state, the error returned (if any) and
the stages that ran, in order. -/
structure Outcome where
  world : World
  err : Option String
  trace : List Event

/-- The call `rootCmd.Execute()` for one invocation. -/
def rootCmdExecute (tf : Tfplan) (hs : Handlers) (inv : Invocation) (w : World) : Outcome :=
  match parseFlags inv.sub inv.given { flags := w.flags, help := false } with
  | (p, some e) => { world := { w with flags := p.flags }, err := some e, trace := [] }
  | (p, none) =>
    if p.help then
      { world := { w with flags := p.flags }, err := none, trace := [.help] }
    else
      match PersistentPreRunE tf { w with flags := p.flags } with
      | (w1, some e) => { world := w1, err := some e, trace := [.hook] }
      | (w1, none) =>
        match validateRequiredFlags inv.sub inv.given with
        | some e => { world := w1, err := some e, trace := [.hook] }
        | none =>
          match hs.run inv.sub inv.args w1 with
          | (w2, r) => { world := w2, err := r, trace := [.hook, .handler inv.sub w1.flags] }

/-! ## Reading a command line

The predicates below describe a command line by what is written on it; the
statements about whole runs are phrased with them. -/

/-- The value a flag has on a command line: that of its last occurrence. -/
def lastValue (name : String) : List (String × String) → Option String
  | [] => none
  | (n, v) :: rest =>
    match lastValue name rest with
    | some x => some x
    | none => if n = name then some v else none

/-- Whether the command line asks for help: the last `help` occurrence says true. -/
def helpRequested (given : List (String × String)) : Bool :=
  match lastValue "help" given with
  | some v => parseBool v == some true
  | none => false

/-- The string flags `init` makes available to a command. -/
def stringFlags : Sub → List String
  | .validate => ["tf-version", "policy-path", "project", "ancestry"]
  | .convert => ["tf-version", "project", "ancestry"]
  | .listSupportedResources => ["tf-version"]
  | .version => ["tf-version"]

/-- The boolean flags available to a command: cobra's `help` and those of `init`. -/
def boolFlags : Sub → List String
  | .validate => ["help", "verbose", "output-json"]
  | .convert => ["help", "verbose"]
  | .listSupportedResources => ["help", "verbose"]
  | .version => ["help", "verbose"]

/-- A well-formed command line for a command: every flag on it is available to
the command, and every boolean flag carries a boolean. -/
def wellFormed (c : Sub) (given : List (String × String)) : Prop :=
  ∀ nv ∈ given, nv.1 ∈ stringFlags c ∨ (nv.1 ∈ boolFlags c ∧ parseBool nv.2 ≠ none)

instance wellFormedDecidable (c : Sub) (given : List (String × String)) :
    Decidable (wellFormed c given) := by
  unfold wellFormed
  infer_instance

/-- The version a command line submits to negotiation: the value of
`--tf-version` when the flag is on it, else what the registry held. -/
def submittedVersion (given : List (String × String)) (w : World) : String :=
  match lastValue "tf-version" given with
  | some v => v
  | none => w.flags.tfVersion

/-! ## Entry point -/

/-- The calls `Execute` makes. -/
inductive Action where
  | dispatch
  | osExit (code : Nat)
deriving DecidableEq, Repr

/-- A finished process: what dispatch produced and the calls `Execute` made. -/
structure Process where
  outcome : Outcome
  actions : List Action

/-- The function `Execute`: run the dispatcher and call `os.Exit(1)` when it
returned an error. -/
def Execute (dispatch : World → Outcome) (w : World) : Process :=
  let o := dispatch w
  match o.err with
  | some _ => { outcome := o, actions := [.dispatch, .osExit 1] }
  | none => { outcome := o, actions := [.dispatch] }

/-- The exit status of the process: the code of the first `os.Exit` call, or 0
when `Execute` returned normally. -/
def Process.exitStatus (p : Process) : Nat :=
  match p.actions.findSome? fun a => match a with
    | .osExit c => some c
    | .dispatch => none with
  | some c => c
  | none => 0

/-! ## Concrete instances used to exercise the statements -/

/-- A sample pair of version tokens. -/
def sampleTf : Tfplan := { TF11 := "0.11", TF12 := "0.12" }

/-- A sample handler: records one collaborator call and succeeds. -/
def sampleHandler (tag : String) : Handler :=
  fun _ w => ({ w with effects := w.effects ++ [tag] }, none)

/-- Sample handlers for the four subcommands. -/
def sampleHandlers : Handlers :=
  { convert := sampleHandler "convert"
    listSupportedResources := sampleHandler "list"
    validate := sampleHandler "validate"
    version := sampleHandler "version" }

/-- A state whose registry already holds the second supported token. -/
def sampleWorld12 : World :=
  { World.initial with flags := { Flags.defaults with tfVersion := "0.12", verbose := true } }

/-- A state whose registry holds an unsupported token. -/
def sampleWorld13 : World :=
  { World.initial with flags := { Flags.defaults with tfVersion := "0.13" } }

/-- The state after the verbosity routing at the top of the hook. -/
def routed (w : World) : World :=
  if !w.flags.verbose then logSetOutput .discard w else w

/-! ## Auxiliary facts -/

theorem routed_flags (w : World) : (routed w).flags = w.flags := by
  unfold routed logSetOutput
  split <;> rfl

theorem routed_stderr (w : World) : (routed w).stderr = w.stderr := by
  unfold routed logSetOutput
  split <;> rfl

theorem routed_stdout (w : World) : (routed w).stdout = w.stdout := by
  unfold routed logSetOutput
  split <;> rfl

theorem routed_effects (w : World) : (routed w).effects = w.effects := by
  unfold routed logSetOutput
  split <;> rfl

theorem routed_logOutput (w : World) :
    (routed w).logOutput = if w.flags.verbose then w.logOutput else .discard := by
  unfold routed logSetOutput
  cases w.flags.verbose <;> rfl

/-- First case of the switch: a supported token. -/
theorem hook_supported (tf : Tfplan) (w : World)
    (h : w.flags.tfVersion = tf.TF11 ∨ w.flags.tfVersion = tf.TF12) :
    PersistentPreRunE tf w = (routed w, none) := by
  have hf := routed_flags w
  unfold routed at hf
  simp only [PersistentPreRunE, routed, hf, h, if_true]

/-- Second case of the switch: the empty string, when it is not a supported token. -/
theorem hook_empty (tf : Tfplan) (w : World)
    (h : ¬ (w.flags.tfVersion = tf.TF11 ∨ w.flags.tfVersion = tf.TF12))
    (he : w.flags.tfVersion = "") :
    PersistentPreRunE tf w =
      (LoggerStdErr.Printf (warningMessage tf.TF11)
        { routed w with flags := { (routed w).flags with tfVersion := tf.TF11 } }, none) := by
  have hf := routed_flags w
  unfold routed at hf
  have h2 : ¬ ("" = tf.TF11 ∨ "" = tf.TF12) := he ▸ h
  simp only [PersistentPreRunE, routed, hf, he, h2, if_true, if_false]

/-- The default case of the switch. -/
theorem hook_other (tf : Tfplan) (w : World)
    (h : ¬ (w.flags.tfVersion = tf.TF11 ∨ w.flags.tfVersion = tf.TF12))
    (he : w.flags.tfVersion ≠ "") :
    PersistentPreRunE tf w = (routed w, some (errorMessage tf w.flags.tfVersion)) := by
  have hf := routed_flags w
  unfold routed at hf
  simp only [PersistentPreRunE, routed, hf, h, he, if_false]

/-- The hook never touches the collaborator record or standard output. -/
theorem hook_effects (tf : Tfplan) (w : World) :
    (PersistentPreRunE tf w).1.effects = w.effects ∧
    (PersistentPreRunE tf w).1.stdout = w.stdout := by
  by_cases h : w.flags.tfVersion = tf.TF11 ∨ w.flags.tfVersion = tf.TF12
  · rw [hook_supported tf w h]
    exact ⟨routed_effects w, routed_stdout w⟩
  · by_cases he : w.flags.tfVersion = ""
    · rw [hook_empty tf w h he]
      exact ⟨routed_effects w, routed_stdout w⟩
    · rw [hook_other tf w h he]
      exact ⟨routed_effects w, routed_stdout w⟩

/-- The hook succeeds only with a supported token in the registry. -/
theorem hook_ok_supported (tf : Tfplan) (w : World) (h : (PersistentPreRunE tf w).2 = none) :
    (PersistentPreRunE tf w).1.flags.tfVersion = tf.TF11 ∨
    (PersistentPreRunE tf w).1.flags.tfVersion = tf.TF12 := by
  by_cases hs : w.flags.tfVersion = tf.TF11 ∨ w.flags.tfVersion = tf.TF12
  · rw [hook_supported tf w hs, routed_flags]
    exact hs
  · by_cases he : w.flags.tfVersion = ""
    · rw [hook_empty tf w hs he]
      exact Or.inl rfl
    · rw [hook_other tf w hs he] at h
      simp at h


/-! ## Auxiliary facts: flag parsing -/

/-- What storing one flag occurrence does to `tfVersion` and to the help value:
only `tf-version` changes the first, only `help` the second. -/
theorem setFlag_ok (c : Sub) (n v : String) (p q : Parsed)
    (h : setFlag c n v p = .ok q) :
    q.flags.tfVersion = (if n = "tf-version" then v else p.flags.tfVersion) ∧
    q.help = (if n = "help" then parseBool v == some true else p.help) := by
  unfold setFlag at h
  repeat' split at h
  all_goals cases h
  all_goals simp_all

/-- A flag available to the command, with a boolean where one is due, is stored. -/
theorem setFlag_accepts (c : Sub) (n v : String) (p : Parsed)
    (h : n ∈ stringFlags c ∨ (n ∈ boolFlags c ∧ parseBool v ≠ none)) :
    ∃ q, setFlag c n v p = .ok q := by
  cases c <;> unfold setFlag <;> repeat' split
  all_goals first
    | exact ⟨_, rfl⟩
    | (exfalso; simp_all [stringFlags, boolFlags])

/-- After a successful parse, `tfVersion` and the help value are those of the
last occurrences on the command line, or what they were before. -/
theorem parseFlags_ok (c : Sub) (given : List (String × String)) :
    ∀ p q : Parsed, parseFlags c given p = (q, none) →
      q.flags.tfVersion = (lastValue "tf-version" given).getD p.flags.tfVersion ∧
      q.help = (match lastValue "help" given with
        | some v => parseBool v == some true
        | none => p.help) := by
  induction given with
  | nil =>
    intro p q h
    simp only [parseFlags, Prod.mk.injEq, and_true] at h
    subst h
    simp [lastValue]
  | cons nv rest ih =>
    obtain ⟨n, v⟩ := nv
    intro p q h
    cases hset : setFlag c n v p with
    | error e => simp [parseFlags, hset] at h
    | ok g =>
      simp only [parseFlags, hset] at h
      have h1 := ih g q h
      have h2 := setFlag_ok c n v p g hset
      constructor
      · rw [h1.1, h2.1]
        cases hl : lastValue "tf-version" rest
        · simp only [lastValue, hl, Option.getD]
          split_ifs <;> rfl
        · simp only [lastValue, hl, Option.getD]
      · rw [h1.2, h2.2]
        cases hl : lastValue "help" rest
        · simp only [lastValue, hl]
          split_ifs <;> rfl
        · simp only [lastValue, hl]

/-- A well-formed command line parses. -/
theorem parseFlags_wellFormed (c : Sub) (given : List (String × String)) :
    wellFormed c given → ∀ p : Parsed, (parseFlags c given p).2 = none := by
  induction given with
  | nil =>
    intro _ p
    rfl
  | cons nv rest ih =>
    obtain ⟨n, v⟩ := nv
    intro hw p
    obtain ⟨g, hg⟩ := setFlag_accepts c n v p (hw (n, v) (List.mem_cons_self _ _))
    simp only [parseFlags, hg]
    exact ih (fun x hx => hw x (List.mem_cons_of_mem _ hx)) g

/-- A parse that starts from the registry of `w` with help unset and succeeds
ends with the submitted version in the registry and with the help value the
command line asks for. -/
theorem parseFlags_run (c : Sub) (given : List (String × String)) (w : World) (q : Parsed)
    (h : parseFlags c given { flags := w.flags, help := false } = (q, none)) :
    q.flags.tfVersion = submittedVersion given w ∧ q.help = helpRequested given := by
  have hq := parseFlags_ok c given _ q h
  constructor
  · rw [hq.1]
    unfold submittedVersion
    cases lastValue "tf-version" given <;> rfl
  · rw [hq.2]
    rfl

/-- The hook accepts the empty string and the two supported tokens. -/
theorem hook_accepts (tf : Tfplan) (w : World)
    (h : w.flags.tfVersion = "" ∨ w.flags.tfVersion = tf.TF11 ∨ w.flags.tfVersion = tf.TF12) :
    (PersistentPreRunE tf w).2 = none := by
  by_cases hs : w.flags.tfVersion = tf.TF11 ∨ w.flags.tfVersion = tf.TF12
  · rw [hook_supported tf w hs]
  · rcases h with h | h
    · rw [hook_empty tf w hs h]
    · exact absurd h hs

/-! ## Auxiliary facts: dispatch -/

/-- Dispatch when flag parsing fails. -/
theorem exec_parse_error (tf : Tfplan) (hs : Handlers) (inv : Invocation) (w : World)
    (p : Parsed) (e : String)
    (hp : parseFlags inv.sub inv.given { flags := w.flags, help := false } = (p, some e)) :
    rootCmdExecute tf hs inv w =
      { world := { w with flags := p.flags }, err := some e, trace := [] } := by
  simp only [rootCmdExecute, hp]

/-- Dispatch when help is asked for. -/
theorem exec_help (tf : Tfplan) (hs : Handlers) (inv : Invocation) (w : World)
    (p : Parsed)
    (hp : parseFlags inv.sub inv.given { flags := w.flags, help := false } = (p, none))
    (hl : p.help = true) :
    rootCmdExecute tf hs inv w =
      { world := { w with flags := p.flags }, err := none, trace := [.help] } := by
  simp only [rootCmdExecute, hp, hl, if_true]

/-- Dispatch when the hook fails. -/
theorem exec_hook_error (tf : Tfplan) (hs : Handlers) (inv : Invocation) (w : World)
    (p : Parsed) (w1 : World) (e : String)
    (hp : parseFlags inv.sub inv.given { flags := w.flags, help := false } = (p, none))
    (hl : p.help = false)
    (hh : PersistentPreRunE tf { w with flags := p.flags } = (w1, some e)) :
    rootCmdExecute tf hs inv w = { world := w1, err := some e, trace := [.hook] } := by
  simp only [rootCmdExecute, hp, hl, hh, Bool.false_eq_true, if_false]

/-- Dispatch when a required flag is missing. -/
theorem exec_required_error (tf : Tfplan) (hs : Handlers) (inv : Invocation) (w : World)
    (p : Parsed) (w1 : World) (e : String)
    (hp : parseFlags inv.sub inv.given { flags := w.flags, help := false } = (p, none))
    (hl : p.help = false)
    (hh : PersistentPreRunE tf { w with flags := p.flags } = (w1, none))
    (hr : validateRequiredFlags inv.sub inv.given = some e) :
    rootCmdExecute tf hs inv w = { world := w1, err := some e, trace := [.hook] } := by
  simp only [rootCmdExecute, hp, hl, hh, hr, Bool.false_eq_true, if_false]

/-- Dispatch when the handler is reached. -/
theorem exec_handler (tf : Tfplan) (hs : Handlers) (inv : Invocation) (w : World)
    (p : Parsed) (w1 : World)
    (hp : parseFlags inv.sub inv.given { flags := w.flags, help := false } = (p, none))
    (hl : p.help = false)
    (hh : PersistentPreRunE tf { w with flags := p.flags } = (w1, none))
    (hr : validateRequiredFlags inv.sub inv.given = none) :
    rootCmdExecute tf hs inv w =
      { world := (hs.run inv.sub inv.args w1).1, err := (hs.run inv.sub inv.args w1).2,
        trace := [.hook, .handler inv.sub w1.flags] } := by
  simp only [rootCmdExecute, hp, hl, hh, hr, Bool.false_eq_true, if_false]

/-- The exit status after a failed dispatch is 1. -/
theorem exit_of_error (d : World → Outcome) (w : World) (h : (d w).err ≠ none) :
    (Execute d w).exitStatus = 1 := by
  cases hd : (d w).err with
  | none => exact absurd hd h
  | some e => simp [Execute, hd, Process.exitStatus]

/-- The exit status after a successful dispatch is 0. -/
theorem exit_of_ok (d : World → Outcome) (w : World) (h : (d w).err = none) :
    (Execute d w).exitStatus = 0 := by
  unfold Execute
  simp [h, Process.exitStatus]

/-- Required-flag validation fails exactly for `validate` without `policy-path`. -/
theorem required_fails_iff (c : Sub) (given : List (String × String)) :
    validateRequiredFlags c given ≠ none ↔
      (c = .validate ∧ "policy-path" ∉ given.map Prod.fst) := by
  cases c <;> simp [validateRequiredFlags, missingFlags, requiredFlags, List.filter_cons]

/-- A run whose submitted version the hook rejects, or whose required flag is
missing, starts no handler and leaves the collaborator record and standard
output as they were; unless help is asked for it returns an error. -/
theorem exec_blocked (tf : Tfplan) (hs : Handlers) (inv : Invocation) (w : World)
    (h : (submittedVersion inv.given w ≠ "" ∧ submittedVersion inv.given w ≠ tf.TF11 ∧
        submittedVersion inv.given w ≠ tf.TF12) ∨
      validateRequiredFlags inv.sub inv.given ≠ none) :
    (∀ c seen, Event.handler c seen ∉ (rootCmdExecute tf hs inv w).trace) ∧
    (rootCmdExecute tf hs inv w).world.effects = w.effects ∧
    (rootCmdExecute tf hs inv w).world.stdout = w.stdout ∧
    (helpRequested inv.given = false → (rootCmdExecute tf hs inv w).err ≠ none) := by
  rcases hp : parseFlags inv.sub inv.given { flags := w.flags, help := false } with ⟨p, _ | e⟩
  · have hrun := parseFlags_run inv.sub inv.given w p hp
    cases hl : p.help with
    | true =>
      rw [exec_help tf hs inv w p hp hl]
      refine ⟨by simp, rfl, rfl, ?_⟩
      intro hq
      rw [← hrun.2, hl] at hq
      exact absurd hq (by decide)
    | false =>
      have hfx := hook_effects tf { w with flags := p.flags }
      rcases hh : PersistentPreRunE tf { w with flags := p.flags } with ⟨w1, _ | e⟩
      · rw [hh] at hfx
        cases hr : validateRequiredFlags inv.sub inv.given with
        | none =>
          rcases h with h | h
          · have hne := (hook_ok_supported tf { w with flags := p.flags } (by rw [hh]))
            have hv : ({ w with flags := p.flags } : World).flags.tfVersion
                = submittedVersion inv.given w := hrun.1
            have hno : ¬ (({ w with flags := p.flags } : World).flags.tfVersion = tf.TF11 ∨
                ({ w with flags := p.flags } : World).flags.tfVersion = tf.TF12) := by
              rw [hv]
              rintro (h1 | h1)
              · exact h.2.1 h1
              · exact h.2.2 h1
            have hoth := hook_other tf { w with flags := p.flags } hno (by rw [hv]; exact h.1)
            rw [hoth] at hh
            simp at hh
          · exact absurd hr h
        | some e =>
          rw [exec_required_error tf hs inv w p w1 e hp hl hh hr]
          exact ⟨by simp, hfx.1, hfx.2, by simp⟩
      · rw [hh] at hfx
        rw [exec_hook_error tf hs inv w p w1 e hp hl hh]
        exact ⟨by simp, hfx.1, hfx.2, by simp⟩
  · rw [exec_parse_error tf hs inv w p e hp]
    exact ⟨by simp, rfl, rfl, by simp⟩

/-- A well-formed command line that does not ask for help reaches the hook, on
the registry holding the submitted version. -/
theorem exec_reaches_hook (c : Sub) (given : List (String × String)) (w : World)
    (hw : wellFormed c given) (hq : helpRequested given = false) :
    ∃ p : Parsed, parseFlags c given { flags := w.flags, help := false } = (p, none) ∧
      p.help = false ∧ p.flags.tfVersion = submittedVersion given w := by
  have hp := parseFlags_wellFormed c given hw { flags := w.flags, help := false }
  refine ⟨(parseFlags c given { flags := w.flags, help := false }).1, ?_, ?_, ?_⟩
  · rw [← hp]
  · rw [(parseFlags_run c given w _ (by rw [← hp])).2, hq]
  · exact (parseFlags_run c given w _ (by rw [← hp])).1

/-- A well-formed command line that asks for help gets it and nothing else. -/
theorem exec_help_run (tf : Tfplan) (hs : Handlers) (inv : Invocation) (w : World)
    (hw : wellFormed inv.sub inv.given) (hq : helpRequested inv.given = true) :
    (rootCmdExecute tf hs inv w).trace = [Event.help] ∧
    (rootCmdExecute tf hs inv w).err = none := by
  have hp := parseFlags_wellFormed inv.sub inv.given hw { flags := w.flags, help := false }
  have hp2 : parseFlags inv.sub inv.given { flags := w.flags, help := false } =
      ((parseFlags inv.sub inv.given { flags := w.flags, help := false }).1, none) := by
    rw [← hp]
  have hl := (parseFlags_run inv.sub inv.given w _ hp2).2
  rw [hq] at hl
  rw [exec_help tf hs inv w _ hp2 hl]
  exact ⟨rfl, rfl⟩

/-! ## Version negotiation: the claims -/

/-- C1: version negotiation fails exactly on unrecognised values. For every
registry state, the hook returns an error if and only if the incoming
`tfVersion` is non-empty and is neither `TF11` nor `TF12`; for every other
value it returns `nil`. This holds for every pair of tokens, in particular
for non-empty ones. -/
theorem negotiation_fails_iff_unrecognised (tf : Tfplan) (w : World) :
    ((PersistentPreRunE tf w).2 ≠ none ↔
      (w.flags.tfVersion ≠ "" ∧ w.flags.tfVersion ≠ tf.TF11 ∧ w.flags.tfVersion ≠ tf.TF12)) ∧
    (¬ (w.flags.tfVersion ≠ "" ∧ w.flags.tfVersion ≠ tf.TF11 ∧ w.flags.tfVersion ≠ tf.TF12) →
      (PersistentPreRunE tf w).2 = none) := by
  by_cases hs : w.flags.tfVersion = tf.TF11 ∨ w.flags.tfVersion = tf.TF12
  · rw [hook_supported tf w hs]
    have : ¬ (w.flags.tfVersion ≠ tf.TF11 ∧ w.flags.tfVersion ≠ tf.TF12) := by
      rintro ⟨h1, h2⟩
      exact hs.elim h1 h2
    constructor
    · constructor
      · intro h
        exact absurd rfl h
      · rintro ⟨_, h⟩
        exact absurd h this
    · intro _
      rfl
  · have hs1 : w.flags.tfVersion ≠ tf.TF11 := fun h => hs (Or.inl h)
    have hs2 : w.flags.tfVersion ≠ tf.TF12 := fun h => hs (Or.inr h)
    by_cases he : w.flags.tfVersion = ""
    · rw [hook_empty tf w hs he]
      constructor
      · constructor
        · intro h
          exact absurd rfl h
        · rintro ⟨h, _⟩
          exact absurd he h
      · intro _
        rfl
    · rw [hook_other tf w hs he]
      constructor
      · constructor
        · intro _
          exact ⟨he, hs1, hs2⟩
        · intro _
          simp
      · intro h
        exact absurd ⟨he, hs1, hs2⟩ h

/-- C2: with an empty `tfVersion` (and non-empty version tokens) the hook sets
`tfVersion` to the default `TF11`, appends exactly one record to the
diagnostic stream, namely the warning that the flag was not defined followed by
the value `tfVersion` has after defaulting, and returns success. -/
theorem empty_version_defaults (tf : Tfplan) (w : World)
    (h11 : tf.TF11 ≠ "") (h12 : tf.TF12 ≠ "") (he : w.flags.tfVersion = "") :
    (PersistentPreRunE tf w).2 = none ∧
    (PersistentPreRunE tf w).1.flags.tfVersion = tf.TF11 ∧
    (PersistentPreRunE tf w).1.stderr =
      w.stderr ++ ["Warning: --tf-version flag not defined, using default value: " ++
        (PersistentPreRunE tf w).1.flags.tfVersion] := by
  have hs : ¬ (w.flags.tfVersion = tf.TF11 ∨ w.flags.tfVersion = tf.TF12) := by
    rw [he]
    rintro (h | h)
    · exact h11 h.symm
    · exact h12 h.symm
  rw [hook_empty tf w hs he]
  refine ⟨rfl, rfl, ?_⟩
  simp only [LoggerStdErr, Logger.Printf, Writer.write, warningMessage, routed_stderr]

/-- Witness for C2: the process-start state with tokens "0.11" and "0.12". -/
theorem empty_version_defaults_witness :
    sampleTf.TF11 ≠ "" ∧ sampleTf.TF12 ≠ "" ∧ World.initial.flags.tfVersion = "" ∧
    (PersistentPreRunE sampleTf World.initial).2 = none ∧
    (PersistentPreRunE sampleTf World.initial).1.flags.tfVersion = "0.11" ∧
    (PersistentPreRunE sampleTf World.initial).1.stderr =
      [] ++ ["Warning: --tf-version flag not defined, using default value: " ++
        (PersistentPreRunE sampleTf World.initial).1.flags.tfVersion] :=
  ⟨by decide, by decide, rfl,
    empty_version_defaults sampleTf World.initial (by decide) (by decide) rfl⟩

/-- C3: when `tfVersion` is one of the two supported tokens the hook is a no-op
on the registry: it returns success, leaves `tfVersion` (and every other
flag) as received, and writes nothing to the diagnostic stream. -/
theorem supported_version_noop (tf : Tfplan) (w : World)
    (h : w.flags.tfVersion = tf.TF11 ∨ w.flags.tfVersion = tf.TF12) :
    (PersistentPreRunE tf w).2 = none ∧
    (PersistentPreRunE tf w).1.flags.tfVersion = w.flags.tfVersion ∧
    (PersistentPreRunE tf w).1.flags = w.flags ∧
    (PersistentPreRunE tf w).1.stderr = w.stderr := by
  rw [hook_supported tf w h]
  exact ⟨rfl, congrArg Flags.tfVersion (routed_flags w), routed_flags w, routed_stderr w⟩

/-- Witness for C3: a registry that already holds "0.12". -/
theorem supported_version_noop_witness :
    (sampleWorld12.flags.tfVersion = sampleTf.TF11 ∨ sampleWorld12.flags.tfVersion = sampleTf.TF12) ∧
    (PersistentPreRunE sampleTf sampleWorld12).2 = none ∧
    (PersistentPreRunE sampleTf sampleWorld12).1.flags.tfVersion = "0.12" ∧
    (PersistentPreRunE sampleTf sampleWorld12).1.flags = sampleWorld12.flags ∧
    (PersistentPreRunE sampleTf sampleWorld12).1.stderr = [] :=
  ⟨Or.inr rfl, supported_version_noop sampleTf sampleWorld12 (Or.inr rfl)⟩

/-- C8: the negotiated version is always a member of the supported set. For
every registry state, if the hook returns success then `tfVersion`
afterwards is `TF11` or `TF12` (hence non-empty when the tokens are), and in
every run the registry a handler is started on holds `TF11` or `TF12`. -/
theorem negotiated_version_supported (tf : Tfplan) :
    (∀ w : World, (PersistentPreRunE tf w).2 = none →
      ((PersistentPreRunE tf w).1.flags.tfVersion = tf.TF11 ∨
        (PersistentPreRunE tf w).1.flags.tfVersion = tf.TF12) ∧
      (tf.TF11 ≠ "" → tf.TF12 ≠ "" → (PersistentPreRunE tf w).1.flags.tfVersion ≠ "")) ∧
    (∀ (hs : Handlers) (inv : Invocation) (w : World) (c : Sub) (seen : Flags),
      Event.handler c seen ∈ (rootCmdExecute tf hs inv w).trace →
        seen.tfVersion = tf.TF11 ∨ seen.tfVersion = tf.TF12) := by
  constructor
  · intro w h
    have hm := hook_ok_supported tf w h
    refine ⟨hm, fun h11 h12 => ?_⟩
    rcases hm with hm | hm <;> rw [hm] <;> assumption
  · intro hs inv w c seen hmem
    rcases hp : parseFlags inv.sub inv.given { flags := w.flags, help := false } with ⟨p, _ | e⟩
    · cases hl : p.help with
      | true =>
        rw [exec_help tf hs inv w p hp hl] at hmem
        simp at hmem
      | false =>
        rcases hh : PersistentPreRunE tf { w with flags := p.flags } with ⟨w1, _ | e⟩
        · cases hr : validateRequiredFlags inv.sub inv.given with
          | none =>
            rw [exec_handler tf hs inv w p w1 hp hl hh hr] at hmem
            simp only [List.mem_cons, List.mem_singleton, Event.handler.injEq, List.not_mem_nil,
              or_false, false_or, reduceCtorEq] at hmem
            have hok := hook_ok_supported tf { w with flags := p.flags } (by rw [hh])
            rw [hh] at hok
            rw [hmem.2]
            exact hok
          | some e =>
            rw [exec_required_error tf hs inv w p w1 e hp hl hh hr] at hmem
            simp at hmem
        · rw [exec_hook_error tf hs inv w p w1 e hp hl hh] at hmem
          simp at hmem
    · rw [exec_parse_error tf hs inv w p e hp] at hmem
      simp at hmem

/-- C9: the configuration error names the received value and enumerates the
supported set. For every non-empty unsupported `s` the hook returns exactly
the message "Possible values for --tf-version flag are [TF11, TF12], got: s";
that message contains both supported tokens and ends with `s` verbatim. -/
theorem configuration_error_message (tf : Tfplan) (w : World)
    (he : w.flags.tfVersion ≠ "") (h11 : w.flags.tfVersion ≠ tf.TF11)
    (h12 : w.flags.tfVersion ≠ tf.TF12) :
    (PersistentPreRunE tf w).2 =
      some ("Possible values for --tf-version flag are [" ++ tf.TF11 ++ ", " ++ tf.TF12 ++
        "], got: " ++ w.flags.tfVersion) ∧
    (∀ msg, (PersistentPreRunE tf w).2 = some msg →
      tf.TF11.data <:+: msg.data ∧ tf.TF12.data <:+: msg.data ∧
      w.flags.tfVersion.data <:+ msg.data) := by
  have hs : ¬ (w.flags.tfVersion = tf.TF11 ∨ w.flags.tfVersion = tf.TF12) := by
    rintro (h | h)
    · exact h11 h
    · exact h12 h
  rw [hook_other tf w hs he]
  refine ⟨rfl, ?_⟩
  intro msg hmsg
  simp only [Option.some.injEq] at hmsg
  subst hmsg
  simp only [errorMessage, String.data_append]
  refine ⟨?_, ?_, ?_⟩
  · refine ⟨"Possible values for --tf-version flag are [".data,
      ", ".data ++ tf.TF12.data ++ "], got: ".data ++ w.flags.tfVersion.data, ?_⟩
    simp only [List.append_assoc]
  · refine ⟨"Possible values for --tf-version flag are [".data ++ tf.TF11.data ++ ", ".data,
      "], got: ".data ++ w.flags.tfVersion.data, ?_⟩
    simp only [List.append_assoc]
  · exact ⟨_, rfl⟩

/-- Witness for C9: a registry that holds "0.13". -/
theorem configuration_error_message_witness :
    (PersistentPreRunE sampleTf sampleWorld13).2 =
      some "Possible values for --tf-version flag are [0.11, 0.12], got: 0.13" :=
  (configuration_error_message sampleTf sampleWorld13 (by decide) (by decide) (by decide)).1

/-- C10: version negotiation touches only the version field and is atomic on
failure. After the hook, `verbose` and every per-subcommand setting equal their
values before; when the hook returns an error the whole registry, `tfVersion`
included, is unchanged; and the returned error and the resulting `tfVersion`
are functions of the incoming `tfVersion` alone. -/
theorem negotiation_frame (tf : Tfplan) (w : World) :
    ((PersistentPreRunE tf w).1.flags.verbose = w.flags.verbose ∧
      (PersistentPreRunE tf w).1.flags.convert.project = w.flags.convert.project ∧
      (PersistentPreRunE tf w).1.flags.convert.ancestry = w.flags.convert.ancestry ∧
      (PersistentPreRunE tf w).1.flags.validate.project = w.flags.validate.project ∧
      (PersistentPreRunE tf w).1.flags.validate.ancestry = w.flags.validate.ancestry ∧
      (PersistentPreRunE tf w).1.flags.validate.policyPath = w.flags.validate.policyPath ∧
      (PersistentPreRunE tf w).1.flags.validate.outputJSON = w.flags.validate.outputJSON) ∧
    ((PersistentPreRunE tf w).2 ≠ none → (PersistentPreRunE tf w).1.flags = w.flags) ∧
    (∀ v : World, v.flags.tfVersion = w.flags.tfVersion →
      (PersistentPreRunE tf v).2 = (PersistentPreRunE tf w).2 ∧
      (PersistentPreRunE tf v).1.flags.tfVersion = (PersistentPreRunE tf w).1.flags.tfVersion) := by
  by_cases hs : w.flags.tfVersion = tf.TF11 ∨ w.flags.tfVersion = tf.TF12
  · refine ⟨?_, ?_, ?_⟩
    · rw [hook_supported tf w hs, routed_flags]
      exact ⟨rfl, rfl, rfl, rfl, rfl, rfl, rfl⟩
    · intro _
      rw [hook_supported tf w hs, routed_flags]
    · intro v hv
      rw [hook_supported tf w hs, hook_supported tf v (hv ▸ hs), routed_flags, routed_flags]
      exact ⟨rfl, hv⟩
  · by_cases he : w.flags.tfVersion = ""
    · refine ⟨?_, ?_, ?_⟩
      · rw [hook_empty tf w hs he]
        simp [LoggerStdErr, Logger.Printf, Writer.write, routed_flags]
      · intro h
        rw [hook_empty tf w hs he] at h
        exact absurd rfl h
      · intro v hv
        rw [hook_empty tf w hs he, hook_empty tf v (hv ▸ hs) (hv ▸ he)]
        exact ⟨rfl, rfl⟩
    · refine ⟨?_, ?_, ?_⟩
      · rw [hook_other tf w hs he, routed_flags]
        exact ⟨rfl, rfl, rfl, rfl, rfl, rfl, rfl⟩
      · intro _
        rw [hook_other tf w hs he, routed_flags]
      · intro v hv
        rw [hook_other tf w hs he, hook_other tf v (hv ▸ hs) (hv ▸ he), routed_flags, routed_flags]
        exact ⟨by rw [hv], hv⟩

/-! ## Dispatch and entry point: the claims -/

/-- C4, as the code has it: an invalid `--tf-version` blocks every subcommand.
For each of the four subcommands and every command line that carries
`--tf-version s` with `s` non-empty and outside the supported set, no handler
is started and no collaborator is called. Unless the command line asks for
help, dispatch returns an error and the process exits with status 1; when the
command line is also well-formed, the hook is the only stage that runs and the
error is the configuration error for `s`. A well-formed command line that asks
for help is shown the help, runs neither hook nor handler and exits with 0. -/
theorem invalid_version_blocks_every_subcommand (tf : Tfplan) (hs : Handlers)
    (c : Sub) (given : List (String × String)) (args : List String) (w : World) (s : String)
    (hv : lastValue "tf-version" given = some s)
    (he : s ≠ "") (h11 : s ≠ tf.TF11) (h12 : s ≠ tf.TF12) :
    (∀ c1 seen, Event.handler c1 seen ∉
      (rootCmdExecute tf hs { sub := c, given := given, args := args } w).trace) ∧
    (rootCmdExecute tf hs { sub := c, given := given, args := args } w).world.effects
      = w.effects ∧
    (helpRequested given = false →
      (rootCmdExecute tf hs { sub := c, given := given, args := args } w).err ≠ none ∧
      (Execute (rootCmdExecute tf hs { sub := c, given := given, args := args }) w).exitStatus
        = 1) ∧
    (helpRequested given = false → wellFormed c given →
      (rootCmdExecute tf hs { sub := c, given := given, args := args } w).trace = [Event.hook] ∧
      (rootCmdExecute tf hs { sub := c, given := given, args := args } w).err
        = some (errorMessage tf s)) ∧
    (helpRequested given = true → wellFormed c given →
      (rootCmdExecute tf hs { sub := c, given := given, args := args } w).trace = [Event.help] ∧
      (rootCmdExecute tf hs { sub := c, given := given, args := args } w).err = none ∧
      (Execute (rootCmdExecute tf hs { sub := c, given := given, args := args }) w).exitStatus
        = 0) := by
  have hsub : submittedVersion given w = s := by
    unfold submittedVersion
    rw [hv]
  have hb := exec_blocked tf hs { sub := c, given := given, args := args } w
    (Or.inl (by rw [show submittedVersion
      ({ sub := c, given := given, args := args } : Invocation).given w = s from hsub]
                exact ⟨he, h11, h12⟩))
  refine ⟨hb.1, hb.2.1, ?_, ?_, ?_⟩
  · intro hq
    exact ⟨hb.2.2.2 hq, exit_of_error _ w (hb.2.2.2 hq)⟩
  · intro hq hw
    obtain ⟨p, hp, hl, hver⟩ := exec_reaches_hook c given w hw hq
    have hno : ¬ (({ w with flags := p.flags } : World).flags.tfVersion = tf.TF11 ∨
        ({ w with flags := p.flags } : World).flags.tfVersion = tf.TF12) := by
      show ¬ (p.flags.tfVersion = tf.TF11 ∨ p.flags.tfVersion = tf.TF12)
      rw [hver, hsub]
      rintro (h1 | h1)
      · exact h11 h1
      · exact h12 h1
    have hoth := hook_other tf { w with flags := p.flags } hno
      (by show p.flags.tfVersion ≠ ""; rw [hver, hsub]; exact he)
    rw [exec_hook_error tf hs { sub := c, given := given, args := args } w p _ _ hp hl hoth]
    refine ⟨rfl, ?_⟩
    show some (errorMessage tf p.flags.tfVersion) = some (errorMessage tf s)
    rw [hver, hsub]
  · intro hq hw
    have hr := exec_help_run tf hs { sub := c, given := given, args := args } w hw hq
    exact ⟨hr.1, hr.2, exit_of_ok _ w hr.2⟩

/-- Witness for C4: `--tf-version 0.13` on each of the four subcommands. -/
theorem invalid_version_blocks_every_subcommand_witness :
    ((rootCmdExecute sampleTf sampleHandlers
        { sub := .convert, given := [("tf-version", "0.13")], args := [] } World.initial).trace
        = [Event.hook] ∧
      (rootCmdExecute sampleTf sampleHandlers
        { sub := .listSupportedResources, given := [("tf-version", "0.13")], args := [] }
        World.initial).trace = [Event.hook] ∧
      (rootCmdExecute sampleTf sampleHandlers
        { sub := .validate, given := [("tf-version", "0.13"), ("policy-path", "p")], args := [] }
        World.initial).trace = [Event.hook] ∧
      (rootCmdExecute sampleTf sampleHandlers
        { sub := .version, given := [("tf-version", "0.13")], args := [] } World.initial).trace
        = [Event.hook]) ∧
    (Execute (rootCmdExecute sampleTf sampleHandlers
      { sub := .convert, given := [("tf-version", "0.13")], args := [] }) World.initial).exitStatus
      = 1 :=
  ⟨⟨((invalid_version_blocks_every_subcommand sampleTf sampleHandlers .convert
        [("tf-version", "0.13")] [] World.initial "0.13" rfl (by decide) (by decide)
        (by decide)).2.2.2.1 rfl (by decide)).1,
    ((invalid_version_blocks_every_subcommand sampleTf sampleHandlers .listSupportedResources
        [("tf-version", "0.13")] [] World.initial "0.13" rfl (by decide) (by decide)
        (by decide)).2.2.2.1 rfl (by decide)).1,
    ((invalid_version_blocks_every_subcommand sampleTf sampleHandlers .validate
        [("tf-version", "0.13"), ("policy-path", "p")] [] World.initial "0.13" rfl (by decide)
        (by decide) (by decide)).2.2.2.1 rfl (by decide)).1,
    ((invalid_version_blocks_every_subcommand sampleTf sampleHandlers .version
        [("tf-version", "0.13")] [] World.initial "0.13" rfl (by decide) (by decide)
        (by decide)).2.2.2.1 rfl (by decide)).1⟩,
   ((invalid_version_blocks_every_subcommand sampleTf sampleHandlers .convert
        [("tf-version", "0.13")] [] World.initial "0.13" rfl (by decide) (by decide)
        (by decide)).2.2.1 rfl).2⟩

/-- C4 as stated fails: `version --tf-version 0.13 --help` carries a non-empty
unsupported version, yet cobra shows the help, the hook does not run, dispatch
returns no error and the exit status is 0; and on
`version --tf-version 0.13 --bogus x` parsing fails, so the run ends with
status 1 before the hook is reached. -/
theorem invalid_version_help_counterexample :
    lastValue "tf-version" [("tf-version", "0.13"), ("help", "true")] = some "0.13" ∧
    "0.13" ≠ sampleTf.TF11 ∧ "0.13" ≠ sampleTf.TF12 ∧
    (rootCmdExecute sampleTf sampleHandlers
      { sub := .version, given := [("tf-version", "0.13"), ("help", "true")], args := [] }
      World.initial).trace = [Event.help] ∧
    (rootCmdExecute sampleTf sampleHandlers
      { sub := .version, given := [("tf-version", "0.13"), ("help", "true")], args := [] }
      World.initial).err = none ∧
    (Execute (rootCmdExecute sampleTf sampleHandlers
      { sub := .version, given := [("tf-version", "0.13"), ("help", "true")], args := [] })
      World.initial).exitStatus = 0 ∧
    (rootCmdExecute sampleTf sampleHandlers
      { sub := .version, given := [("tf-version", "0.13"), ("bogus", "x")], args := [] }
      World.initial).trace = [] ∧
    (Execute (rootCmdExecute sampleTf sampleHandlers
      { sub := .version, given := [("tf-version", "0.13"), ("bogus", "x")], args := [] })
      World.initial).exitStatus = 1 := by
  decide

/-- C5, as the code has it: whenever `verbose` is not set the hook routes the
output of the standard logger to the discard sink, on every path and before
the version is looked at, so nothing the standard logger prints afterwards
reaches the diagnostic stream; with `verbose` set the standard logger is left
alone. The defaulting warning does not go through the standard logger but
through `LoggerStdErr`, a logger of its own bound to `os.Stderr`: in a run with
an empty `--tf-version` (and non-empty tokens) it is appended to the diagnostic
stream whether `verbose` is set or not. -/
theorem warning_written_whatever_verbose (tf : Tfplan) (w : World) :
    (w.flags.verbose = false →
      (PersistentPreRunE tf w).1.logOutput = Writer.discard ∧
      ∀ msg, (logPrintf msg (PersistentPreRunE tf w).1).stderr = (PersistentPreRunE tf w).1.stderr) ∧
    (w.flags.verbose = true → (PersistentPreRunE tf w).1.logOutput = w.logOutput) ∧
    (tf.TF11 ≠ "" → tf.TF12 ≠ "" → w.flags.tfVersion = "" →
      (PersistentPreRunE tf w).1.stderr = w.stderr ++ [warningMessage tf.TF11]) := by
  have hlog : (PersistentPreRunE tf w).1.logOutput = (routed w).logOutput := by
    by_cases hs : w.flags.tfVersion = tf.TF11 ∨ w.flags.tfVersion = tf.TF12
    · rw [hook_supported tf w hs]
    · by_cases he : w.flags.tfVersion = ""
      · rw [hook_empty tf w hs he]
        rfl
      · rw [hook_other tf w hs he]
  refine ⟨?_, ?_, ?_⟩
  · intro hv
    have hl : (PersistentPreRunE tf w).1.logOutput = Writer.discard := by
      rw [hlog, routed_logOutput, hv]
      rfl
    refine ⟨hl, ?_⟩
    intro msg
    simp only [logPrintf, hl, Writer.write]
  · intro hv
    rw [hlog, routed_logOutput, hv]
    rfl
  · intro h11 h12 he
    have hs : ¬ (w.flags.tfVersion = tf.TF11 ∨ w.flags.tfVersion = tf.TF12) := by
      rw [he]
      rintro (h | h)
      · exact h11 h.symm
      · exact h12 h.symm
    rw [hook_empty tf w hs he]
    simp only [LoggerStdErr, Logger.Printf, Writer.write, routed_stderr]

/-- Witness for C5 as the code has it: the process-start state, where `verbose` is false. -/
theorem warning_written_whatever_verbose_witness :
    (PersistentPreRunE sampleTf World.initial).1.logOutput = Writer.discard ∧
    (PersistentPreRunE sampleTf World.initial).1.stderr = [] ++ [warningMessage "0.11"] :=
  ⟨((warning_written_whatever_verbose sampleTf World.initial).1 rfl).1,
    (warning_written_whatever_verbose sampleTf World.initial).2.2 (by decide) (by decide) rfl⟩

/-- C5 as stated fails: at process start `verbose` is false and `tfVersion` is
empty; the hook routes the standard logger to the discard sink and still
writes the defaulting warning to the diagnostic stream, in the hook alone and
in a whole run of the `version` subcommand without flags. -/
theorem warning_suppressed_counterexample :
    World.initial.flags.verbose = false ∧
    World.initial.flags.tfVersion = "" ∧
    (PersistentPreRunE sampleTf World.initial).1.logOutput = Writer.discard ∧
    (PersistentPreRunE sampleTf World.initial).1.stderr ≠ World.initial.stderr ∧
    (PersistentPreRunE sampleTf World.initial).1.stderr =
      ["Warning: --tf-version flag not defined, using default value: 0.11"] ∧
    (rootCmdExecute sampleTf sampleHandlers
      { sub := .version, given := [], args := [] } World.initial).world.stderr =
      ["Warning: --tf-version flag not defined, using default value: 0.11"] := by
  decide

/-- C6, as the code has it: `validate` requires `--policy-path`. A `validate`
command line without the flag never starts the handler and never calls a
collaborator; unless it asks for help, dispatch returns an error and the
process exits with status 1, while a well-formed one that asks for help is
shown the help and exits with 0. The required-flag check fails for that reason
only, and no other flag of `init` is needed: every well-formed command line of
any subcommand that does not ask for help, submits the empty string or a
supported version and (for `validate`) carries `--policy-path` reaches its
handler and returns what the handler returns, whichever of `project`,
`ancestry` and `output-json` it leaves out. -/
theorem validate_requires_policy_path (tf : Tfplan) (hs : Handlers) :
    (∀ (given : List (String × String)) (args : List String) (w : World),
      "policy-path" ∉ given.map Prod.fst →
        (∀ c seen, Event.handler c seen ∉
          (rootCmdExecute tf hs { sub := .validate, given := given, args := args } w).trace) ∧
        (rootCmdExecute tf hs { sub := .validate, given := given, args := args } w).world.effects
          = w.effects ∧
        (helpRequested given = false →
          (rootCmdExecute tf hs { sub := .validate, given := given, args := args } w).err ≠ none ∧
          (Execute (rootCmdExecute tf hs { sub := .validate, given := given, args := args })
            w).exitStatus = 1) ∧
        (helpRequested given = true → wellFormed .validate given →
          (rootCmdExecute tf hs { sub := .validate, given := given, args := args } w).err = none ∧
          (Execute (rootCmdExecute tf hs { sub := .validate, given := given, args := args })
            w).exitStatus = 0)) ∧
    (∀ (c : Sub) (given : List (String × String)),
      validateRequiredFlags c given ≠ none ↔
        (c = .validate ∧ "policy-path" ∉ given.map Prod.fst)) ∧
    (∀ (c : Sub) (given : List (String × String)) (args : List String) (w : World),
      wellFormed c given → helpRequested given = false →
      (submittedVersion given w = "" ∨ submittedVersion given w = tf.TF11 ∨
        submittedVersion given w = tf.TF12) →
      (c = .validate → "policy-path" ∈ given.map Prod.fst) →
        (rootCmdExecute tf hs { sub := c, given := given, args := args } w).trace =
          [Event.hook, Event.handler c
            (PersistentPreRunE tf { w with flags :=
              (parseFlags c given { flags := w.flags, help := false }).1.flags }).1.flags] ∧
        (rootCmdExecute tf hs { sub := c, given := given, args := args } w).err =
          (hs.run c args
            (PersistentPreRunE tf { w with flags :=
              (parseFlags c given { flags := w.flags, help := false }).1.flags }).1).2) := by
  refine ⟨?_, required_fails_iff, ?_⟩
  · intro given args w hmiss
    have hr : validateRequiredFlags Sub.validate given ≠ none :=
      (required_fails_iff Sub.validate given).mpr ⟨rfl, hmiss⟩
    have hb := exec_blocked tf hs { sub := .validate, given := given, args := args } w
      (Or.inr hr)
    refine ⟨hb.1, hb.2.1, ?_, ?_⟩
    · intro hq
      exact ⟨hb.2.2.2 hq, exit_of_error _ w (hb.2.2.2 hq)⟩
    · intro hq hw
      have hh := exec_help_run tf hs { sub := .validate, given := given, args := args } w hw hq
      exact ⟨hh.2, exit_of_ok _ w hh.2⟩
  · intro c given args w hw hq hsub hreq
    obtain ⟨p, hp, hl, hver⟩ := exec_reaches_hook c given w hw hq
    have hacc : (PersistentPreRunE tf { w with flags := p.flags }).2 = none := by
      apply hook_accepts
      show p.flags.tfVersion = "" ∨ p.flags.tfVersion = tf.TF11 ∨ p.flags.tfVersion = tf.TF12
      rw [hver]
      exact hsub
    have hh2 : PersistentPreRunE tf { w with flags := p.flags } =
        ((PersistentPreRunE tf { w with flags := p.flags }).1, none) := by
      rw [← hacc]
    have hr : validateRequiredFlags c given = none := by
      by_contra hne
      have := (required_fails_iff c given).mp hne
      exact this.2 (hreq this.1)
    rw [exec_handler tf hs { sub := c, given := given, args := args } w p _ hp hl hh2 hr, hp]
    exact ⟨rfl, rfl⟩

/-- Witness for C6: `validate` without any flag fails with status 1, while
`validate --policy-path p` and `convert` without any flag reach their handlers
and succeed. -/
theorem validate_requires_policy_path_witness :
    (Execute (rootCmdExecute sampleTf sampleHandlers
      { sub := .validate, given := [], args := ["plan"] }) World.initial).exitStatus = 1 ∧
    (rootCmdExecute sampleTf sampleHandlers
      { sub := .validate, given := [("policy-path", "p")], args := ["plan"] }
      World.initial).err = none ∧
    (rootCmdExecute sampleTf sampleHandlers
      { sub := .convert, given := [], args := ["plan"] } World.initial).err = none :=
  ⟨(((validate_requires_policy_path sampleTf sampleHandlers).1 [] ["plan"] World.initial
      (by decide)).2.2.1 rfl).2,
    (((validate_requires_policy_path sampleTf sampleHandlers).2.2 .validate
      [("policy-path", "p")] ["plan"] World.initial (by decide) rfl (by decide)
      (by decide)).2).trans (by decide),
    (((validate_requires_policy_path sampleTf sampleHandlers).2.2 .convert
      [] ["plan"] World.initial (by decide) rfl (by decide) (by decide)).2).trans (by decide)⟩

/-- C6 as stated fails: `validate --help` does not supply `--policy-path`, yet
cobra shows the help, dispatch returns no error and the exit status is 0. -/
theorem validate_help_counterexample :
    "policy-path" ∉ ([("help", "true")] : List (String × String)).map Prod.fst ∧
    (rootCmdExecute sampleTf sampleHandlers
      { sub := .validate, given := [("help", "true")], args := [] } World.initial).trace
      = [Event.help] ∧
    (rootCmdExecute sampleTf sampleHandlers
      { sub := .validate, given := [("help", "true")], args := [] } World.initial).err = none ∧
    (Execute (rootCmdExecute sampleTf sampleHandlers
      { sub := .validate, given := [("help", "true")], args := [] }) World.initial).exitStatus
      = 0 := by
  decide

/-- C7: `Execute` maps the dispatch result to the exit status. It calls the
dispatcher exactly once and keeps its result; it calls `os.Exit(1)` if and
only if dispatch returned an error, so the exit status is 1 exactly then; when
dispatch succeeds it makes no exit call and the status is 0. -/
theorem execute_exit_status (d : World → Outcome) (w : World) :
    (Execute d w).actions.count Action.dispatch = 1 ∧
    (Execute d w).outcome = d w ∧
    (Action.osExit 1 ∈ (Execute d w).actions ↔ (d w).err ≠ none) ∧
    ((Execute d w).exitStatus = 1 ↔ (d w).err ≠ none) ∧
    ((d w).err = none →
      (∀ c, Action.osExit c ∉ (Execute d w).actions) ∧ (Execute d w).exitStatus = 0) := by
  cases hd : (d w).err with
  | none => simp [Execute, hd, Process.exitStatus]
  | some e => simp [Execute, hd, Process.exitStatus]

end TerraformValidator
